import Mathlib

/-!
Verification of the BitSwanPump pipeline framework specification against a
shallow embedding of the repository's Python sources.

The embedding covers:
* the declarative expression engine (`AND`, `EQUALS` from
  `bspump/declarative/expression/logical/`),
* the metric registry (`asab/metrics/metrics.py`: `Gauge`, `Counter`,
  `EPSCounter`, `AggregationCounter`, `DutyCycle`, `Histogram`),
* the alert provider worker restart logic (`bspump/asab/alert.py`),
* the run-time tick governor (`asab/application.py`),
* the MySQL lookup cache (`bspump/mysql/lookup.py`).

Python dicts are modelled as insertion-ordered association lists, Python
floats as rationals (with a separate `PFloat` carrying `+inf` for histogram
bucket bounds), Python machinery that raises as `Except`/`Option` values.
-/

/-! ### Association lists: the model of Python `dict`

Python 3.7+ dicts preserve insertion order; assignment to an existing key
keeps its position, assignment to a fresh key appends.  `alGet` is `d[k]`
(first matching key), `alSet` is `d[k] = v`.
-/

/-- Insertion-ordered association list with string keys: the model of a
Python `dict`. -/
abbrev PyDict (α : Type) := List (String × α)

/-- Python `d.get(k)` / `d[k]`: value of the first entry with key `k`. -/
def alGet {α : Type} : PyDict α → String → Option α
  | [], _ => none
  | (k', v') :: rest, k => if k = k' then some v' else alGet rest k

/-- Key membership test, Python `k in d`. -/
def alHas {α : Type} (l : PyDict α) (k : String) : Bool :=
  (alGet l k).isSome

/-- Python `d[k] = v`: replace the value at key `k` in place when present,
append a new entry otherwise. -/
def alSet {α : Type} (l : PyDict α) (k : String) (v : α) : PyDict α :=
  if alHas l k then l.map (fun p => if p.1 = k then (k, v) else p)
  else l ++ [(k, v)]

/-- Python `base.copy(); base.update(upd)`: entries of `upd` written over
`base` in order. -/
def dictUpdate {α : Type} (base upd : PyDict α) : PyDict α :=
  upd.foldl (fun acc p => alSet acc p.1 p.2) base

/-- One-sided inclusion used to express Python `dict` equality. -/
def dictSubset {α : Type} [DecidableEq α] (l₁ l₂ : PyDict α) : Bool :=
  l₁.all (fun p => alGet l₂ p.1 = some p.2)

/-- Python `d1 == d2` on dicts: equality as key-value maps, insertion order
ignored. -/
def dictEqv {α : Type} [DecidableEq α] (l₁ l₂ : PyDict α) : Bool :=
  dictSubset l₁ l₂ && dictSubset l₂ l₁

/-! ### Python values and the declarative expression engine

Source: `bspump/declarative/expression/logical/andexpr.py` and
`equalsexpr.py`.  Both `AND.__call__` and `EQUALS.__call__` are
`functools.reduce` over `self.Items` with no initial value, so the first
step receives the first `Expression` object itself as the accumulator and a
single-item reduce returns that object unevaluated.
-/

/-- Model of the Python values the expression engine manipulates. -/
inductive PyVal where
  | vint : Int → PyVal
  | vbool : Bool → PyVal
  | vstr : String → PyVal
  | vnone : PyVal
deriving DecidableEq, Repr

/-- Numeric view: Python compares `bool` and `int` numerically
(`True == 1`, `False == 0`). -/
def PyVal.toNum : PyVal → Option Int
  | .vint n => some n
  | .vbool b => some (if b then 1 else 0)
  | _ => none

/-- Python truthiness. -/
def PyVal.truthy : PyVal → Bool
  | .vint n => n ≠ 0
  | .vbool b => b
  | .vstr s => s ≠ ""
  | .vnone => false

/-- Python `==` on the modelled values: numeric cross-type comparison for
`int`/`bool`, structural otherwise, `False` across types. -/
def pyEq (a b : PyVal) : Bool :=
  match a.toNum, b.toNum with
  | some m, some n => m = n
  | _, _ =>
    match a, b with
    | .vstr s, .vstr t => s = t
    | .vnone, .vnone => true
    | _, _ => false

/-- A built expression node: callable as `node(context, event)`. -/
structure Expression (Ctx Ev : Type) where
  eval : Ctx → Ev → PyVal

/-- Result of `__call__`: `functools.reduce` with a single item returns the
item itself — an unevaluated `Expression` object — otherwise a value. -/
inductive CallResult (Ctx Ev : Type) where
  | exprObj : Expression Ctx Ev → CallResult Ctx Ev
  | val : PyVal → CallResult Ctx Ev

/-- Whether a call produced a plain value (rather than the unevaluated
`Expression` object that a single-item `reduce` returns). -/
def CallResult.isVal {Ctx Ev : Type} : CallResult Ctx Ev → Bool
  | .exprObj _ => false
  | .val _ => true

/-- Python `x and y(...)` with `x` an already-computed value: `y` is
evaluated only when `x` is truthy. -/
def pyAnd (x : PyVal) (y : Unit → PyVal) : PyVal :=
  if x.truthy then y () else x

/-- `AND.__call__` (andexpr.py lines 23-27): `functools.reduce` of
`lambda x, y: x(c, e) and y(c, e) if isinstance(x, Expression) else
x and y(c, e)` over `self.Items`.  Empty items raise (`none`); a single
item is returned unevaluated; otherwise the first step evaluates the first
item and conjoins the rest left to right with Python `and`. -/
def AND_call {Ctx Ev : Type} (items : List (Expression Ctx Ev))
    (ctx : Ctx) (ev : Ev) : Option (CallResult Ctx Ev) :=
  match items with
  | [] => none
  | [e] => some (.exprObj e)
  | e0 :: e1 :: rest =>
    let acc1 := pyAnd (e0.eval ctx ev) (fun _ => e1.eval ctx ev)
    some (.val (rest.foldl (fun acc e => pyAnd acc (fun _ => e.eval ctx ev)) acc1))

/-- `EQUALS.__call__` (equalsexpr.py lines 23-27): same `reduce` shape with
`==` in place of `and`; after the first step the accumulator is a Python
`bool`, so a third item is compared against that boolean. -/
def EQUALS_call {Ctx Ev : Type} (items : List (Expression Ctx Ev))
    (ctx : Ctx) (ev : Ev) : Option (CallResult Ctx Ev) :=
  match items with
  | [] => none
  | [e] => some (.exprObj e)
  | e0 :: e1 :: rest =>
    let acc1 := PyVal.vbool (pyEq (e0.eval ctx ev) (e1.eval ctx ev))
    some (.val (rest.foldl
      (fun acc e => PyVal.vbool (pyEq acc (e.eval ctx ev))) acc1))

/-- Evaluation-order instrumentation of `AND.__call__`: same computation,
also returning the indices of the items whose `eval` was invoked. -/
def andGoTrace {Ctx Ev : Type} (ctx : Ctx) (ev : Ev) :
    PyVal → Nat → List (Expression Ctx Ev) → PyVal × List Nat
  | acc, _, [] => (acc, [])
  | acc, i, e :: rest =>
    if acc.truthy then
      let v := e.eval ctx ev
      let (r, log) := andGoTrace ctx ev v (i + 1) rest
      (r, i :: log)
    else (acc, [])

/-- Traced `AND.__call__`: the value computed together with the list of
item indices that were actually evaluated. -/
def AND_call_trace {Ctx Ev : Type} (items : List (Expression Ctx Ev))
    (ctx : Ctx) (ev : Ev) : Option (CallResult Ctx Ev × List Nat) :=
  match items with
  | [] => none
  | [e] => some (.exprObj e, [])
  | e0 :: e1 :: rest =>
    let v0 := e0.eval ctx ev
    let (acc1, log1) :=
      if v0.truthy then (e1.eval ctx ev, [0, 1]) else (v0, [0])
    let (r, log) := andGoTrace ctx ev acc1 2 rest
    some (.val r, log1 ++ log)

/-- Specification-side short-circuit conjunction: the value of the first
falsy element, or the last element when all are truthy. -/
def firstFalsyOrLast : PyVal → List PyVal → PyVal
  | v, [] => v
  | v, w :: ws => if v.truthy then firstFalsyOrLast w ws else v

/-- Specification-side index at which short-circuit evaluation stops: the
index of the first falsy value, or the last index when none is falsy. -/
def firstStop : List PyVal → Nat
  | [] => 0
  | [_] => 0
  | v :: w :: ws => if v.truthy then firstStop (w :: ws) + 1 else 0

/-- Specification-side count of how many further items get evaluated when
the accumulator currently holds `acc`: one per item as long as the running
value stays truthy. -/
def andCount : PyVal → List PyVal → Nat
  | _, [] => 0
  | acc, v :: vs => if acc.truthy then 1 + andCount v vs else 0

/-- Specification-side pairwise equality of a list of values. -/
def allPairwiseEq : List PyVal → Bool
  | [] => true
  | v :: vs => vs.all (fun w => pyEq v w)

/-- Constant expression node, used for concrete instances. -/
def constExpr (v : PyVal) : Expression Unit Unit := ⟨fun _ _ => v⟩

/-! ### Metric registry

Source: `asab/metrics/metrics.py`.  Each metric owns a fieldset of tag-keyed
fields.  `self.App.time()` and `self.Loop.time()` are threaded as explicit
`app_time` / `loop_time` parameters; the `now` argument of `flush` is kept
separate, exactly as in the source.  `Storage.get("reset")` is the `reset`
flag.  Values and times are rationals.
-/

/-- A metric field: `{"tags": ..., <payload>, "expires_at": ...}`. -/
structure MField (P : Type) where
  tags : PyDict String
  payload : P
  expires_at : ℚ
deriving DecidableEq

/-- In-place update of the `i`-th list element, the model of mutating a
field obtained from the fieldset. -/
def listModify {β : Type} (l : List β) (i : Nat) (f : β → β) : List β :=
  match l[i]? with
  | some x => l.set i (f x)
  | none => l

/-- Eviction applied at the start of every `flush`:
`[field for field in fieldset if field["expires_at"] >= self.App.time()]`. -/
def evictFields {P : Type} (fieldset : List (MField P)) (app_time : ℚ) : List (MField P) :=
  fieldset.filter (fun f => decide (f.expires_at ≥ app_time))

/-- `Metric.locate_field` (metrics.py lines 29-50): with `tags is None` and a
single-field fieldset return it; otherwise merge `StaticTags` over the given
tags (or use `StaticTags` alone when `tags is None`), linear-scan for a dict
equal to them, and create a new field via the class's `add_field` when
absent.  Returns the (possibly extended) fieldset and the located index. -/
def locate_field {P : Type} (fieldset : List (MField P)) (StaticTags : PyDict String)
    (tags : Option (PyDict String)) (mk : PyDict String → MField P) :
    List (MField P) × Nat :=
  let seek := fun (tgs : PyDict String) =>
    match fieldset.findIdx? (fun f => dictEqv f.tags tgs) with
    | some i => (fieldset, i)
    | none => (fieldset ++ [mk tgs], fieldset.length)
  match tags with
  | none =>
    if fieldset.length = 1 then (fieldset, 0)
    else seek StaticTags
  | some t => seek (dictUpdate t StaticTags)

/-- Payload of a `Gauge` field. -/
structure GaugeP where
  values : PyDict ℚ
deriving DecidableEq

/-- The `Gauge` metric. -/
structure Gauge where
  StaticTags : PyDict String
  Init : Option (PyDict ℚ)
  Expiration : ℚ
  fieldset : List (MField GaugeP)
deriving DecidableEq

/-- `Gauge.add_field` (metrics.py lines 59-66). -/
def Gauge.add_field (s : Gauge) (app_time : ℚ) (tags : PyDict String) : MField GaugeP :=
  { tags := tags
    payload := { values := s.Init.getD [] }
    expires_at := app_time + s.Expiration }

/-- `locate_field` specialised to a gauge. -/
def Gauge.locate (s : Gauge) (tags : Option (PyDict String)) (app_time : ℚ) :
    List (MField GaugeP) × Nat :=
  locate_field s.fieldset s.StaticTags tags (s.add_field app_time)

/-- `Gauge.set` (metrics.py lines 69-72). -/
def Gauge.set (s : Gauge) (name : String) (value : ℚ) (tags : Option (PyDict String))
    (app_time : ℚ) : Gauge :=
  let fi := Gauge.locate s tags app_time
  { s with fieldset := listModify fi.1 fi.2 (fun f =>
      { f with payload := { values := alSet f.payload.values name value }
               expires_at := app_time + s.Expiration }) }

/-- `Gauge.flush` (metrics.py lines 74-75): eviction only. -/
def Gauge.flush (s : Gauge) (app_time : ℚ) : Gauge :=
  { s with fieldset := evictFields s.fieldset app_time }

/-- Payload of a `Counter` field. -/
structure CounterP where
  values : PyDict ℚ
  actuals : PyDict ℚ
deriving DecidableEq

/-- The `Counter` metric. -/
structure Counter where
  StaticTags : PyDict String
  Init : Option (PyDict ℚ)
  reset : Bool
  Expiration : ℚ
  fieldset : List (MField CounterP)
deriving DecidableEq

/-- `Counter.add_field` (metrics.py lines 80-88). -/
def Counter.add_field (s : Counter) (app_time : ℚ) (tags : PyDict String) : MField CounterP :=
  { tags := tags
    payload := { values := s.Init.getD [], actuals := s.Init.getD [] }
    expires_at := app_time + s.Expiration }

/-- `locate_field` specialised to a counter. -/
def Counter.locate (s : Counter) (tags : Option (PyDict String)) (app_time : ℚ) :
    List (MField CounterP) × Nat :=
  locate_field s.fieldset s.StaticTags tags (s.add_field app_time)

/-- `Counter.add` (metrics.py lines 91-108): `actuals[name] += value` with
`KeyError` initialising to `value`, then refresh `expires_at`. -/
def Counter.add (s : Counter) (name : String) (value : ℚ) (tags : Option (PyDict String))
    (app_time : ℚ) : Counter :=
  let fi := Counter.locate s tags app_time
  { s with fieldset := listModify fi.1 fi.2 (fun f =>
      let actuals := match alGet f.payload.actuals name with
        | some x => alSet f.payload.actuals name (x + value)
        | none => alSet f.payload.actuals name value
      { f with payload := { f.payload with actuals := actuals }
               expires_at := app_time + s.Expiration }) }

/-- `Counter.sub` (metrics.py lines 111-128). -/
def Counter.sub (s : Counter) (name : String) (value : ℚ) (tags : Option (PyDict String))
    (app_time : ℚ) : Counter :=
  let fi := Counter.locate s tags app_time
  { s with fieldset := listModify fi.1 fi.2 (fun f =>
      let actuals := match alGet f.payload.actuals name with
        | some x => alSet f.payload.actuals name (x - value)
        | none => alSet f.payload.actuals name (-value)
      { f with payload := { f.payload with actuals := actuals }
               expires_at := app_time + s.Expiration }) }

/-- `Counter.flush` (metrics.py lines 131-142): evict, then either move
`actuals` into `values` and reinitialise `actuals` (reset mode) or copy
`actuals` into `values`. -/
def Counter.flush (s : Counter) (app_time : ℚ) : Counter :=
  let fs := evictFields s.fieldset app_time
  if s.reset then
    { s with fieldset := fs.map (fun f =>
        { f with payload := { values := f.payload.actuals, actuals := s.Init.getD [] } }) }
  else
    { s with fieldset := fs.map (fun f =>
        { f with payload := { f.payload with values := f.payload.actuals } }) }

/-- The events-per-second counter, a `Counter` with a `LastTime` stamp. -/
structure EPSCounter extends Counter where
  LastTime : ℚ
deriving DecidableEq

/-- `EPSCounter.flush` (metrics.py lines 157-177): evict, return early when
`now - LastTime <= 0`, otherwise divide every `actuals` entry by the delta;
in reset mode reinitialise `actuals` and stamp `LastTime = now` (the stamp
sits inside the per-field loop, so it only happens when a field exists). -/
def EPSCounter.flush (s : EPSCounter) (now app_time : ℚ) : EPSCounter :=
  let fs := evictFields s.fieldset app_time
  let delta := now - s.LastTime
  if delta ≤ 0 then { s with toCounter := { s.toCounter with fieldset := fs } }
  else
    let fs' := fs.map (fun f =>
      { f with payload :=
          { values := f.payload.actuals.map (fun p => (p.1, p.2 / delta))
            actuals := if s.reset then s.Init.getD [] else f.payload.actuals } })
    { s with toCounter := { s.toCounter with fieldset := fs' }
             LastTime := if s.reset ∧ fs ≠ [] then now else s.LastTime }

/-- The aggregation counter: a `Counter` whose `set` combines the incoming
value with the stored one through `self.Aggregator`. -/
structure AggregationCounter extends Counter where
  Aggregator : ℚ → ℚ → ℚ

/-- `AggregationCounter.set` (metrics.py lines 287-295). -/
def AggregationCounter.set (s : AggregationCounter) (name : String) (value : ℚ)
    (tags : Option (PyDict String)) (app_time : ℚ) : AggregationCounter :=
  let fi := Counter.locate s.toCounter tags app_time
  { s with toCounter := { s.toCounter with fieldset := listModify fi.1 fi.2 (fun f =>
      let actuals := match alGet f.payload.actuals name with
        | some x => alSet f.payload.actuals name (s.Aggregator value x)
        | none => alSet f.payload.actuals name value
      { f with payload := { f.payload with actuals := actuals }
               expires_at := app_time + s.Expiration }) } }

/-- Per-name duty-cycle accumulator:
`{"on_off": ..., "timestamp": ..., "off_cycle": ..., "on_cycle": ...}`. -/
structure DCValue where
  on_off : Option Bool
  timestamp : ℚ
  off_cycle : ℚ
  on_cycle : ℚ
deriving DecidableEq

/-- Payload of a `DutyCycle` field. -/
structure DutyCycleP where
  values : PyDict ℚ
  actuals : PyDict DCValue
deriving DecidableEq

/-- The `DutyCycle` metric. -/
structure DutyCycle where
  StaticTags : PyDict String
  Init : PyDict DCValue
  Expiration : ℚ
  fieldset : List (MField DutyCycleP)
deriving DecidableEq

/-- `DutyCycle.add_field` (metrics.py lines 209-217). -/
def DutyCycle.add_field (s : DutyCycle) (app_time : ℚ) (tags : PyDict String) :
    MField DutyCycleP :=
  { tags := tags
    payload := { values := [], actuals := s.Init }
    expires_at := app_time + s.Expiration }

/-- `locate_field` specialised to a duty cycle. -/
def DutyCycle.locate (s : DutyCycle) (tags : Option (PyDict String)) (app_time : ℚ) :
    List (MField DutyCycleP) × Nat :=
  locate_field s.fieldset s.StaticTags tags (s.add_field app_time)

/-- `DutyCycle.set` (metrics.py lines 220-249).  A fresh name installs a new
accumulator and returns; an unchanged state returns; both early returns skip
the `expires_at` refresh at line 249, which only the switch path reaches. -/
def DutyCycle.set (s : DutyCycle) (name : String) (on_off : Bool)
    (tags : Option (PyDict String)) (loop_time app_time : ℚ) : DutyCycle :=
  let fi := DutyCycle.locate s tags app_time
  { s with fieldset := listModify fi.1 fi.2 (fun f =>
      match alGet f.payload.actuals name with
      | none =>
        { f with payload := { f.payload with
            actuals := alSet f.payload.actuals name
              { on_off := some on_off, timestamp := loop_time
                off_cycle := 0, on_cycle := 0 } } }
      | some v =>
        if v.on_off = some on_off then f
        else
          let d := loop_time - v.timestamp
          let off_cycle := if on_off then v.off_cycle + d else v.off_cycle
          let on_cycle := if on_off then v.on_cycle else v.on_cycle + d
          { f with
            payload := { f.payload with
              actuals := alSet f.payload.actuals name
                { on_off := some on_off, timestamp := loop_time
                  off_cycle := off_cycle, on_cycle := on_cycle } }
            expires_at := app_time + s.Expiration }) }

/-- The loop-carried variables of `DutyCycle.flush`: `v_name`, `values`,
`off_cycle`, `on_cycle` live at function scope in the Python source, so they
persist across both the inner per-name loop and the outer per-field loop. -/
structure DCCarry where
  v_name : String
  vals : DCValue
  off_cycle : ℚ
  on_cycle : ℚ
deriving DecidableEq

/-- The inner loop of `DutyCycle.flush` (metrics.py lines 256-263): each
iteration recomputes `d`, `off_cycle`, `on_cycle` from the current entry,
overwriting the previous iteration's bindings; nothing else happens inside
the loop body, so only the final entry's data survives. -/
def dcCredit (now : ℚ) (c : Option DCCarry) (actuals : PyDict DCValue) : Option DCCarry :=
  actuals.foldl (fun _c p =>
    let d := now - p.2.timestamp
    let off_cycle := p.2.off_cycle
    let on_cycle := p.2.on_cycle
    if p.2.on_off = some true then some ⟨p.1, p.2, off_cycle, on_cycle + d⟩
    else some ⟨p.1, p.2, off_cycle + d, on_cycle⟩) c

/-- The outer loop of `DutyCycle.flush` (metrics.py lines 254-273).  The
ratio write and the accumulator roll sit at the per-field indentation level,
after the inner loop: they use whatever `v_name`/`values`/cycles the last
inner iteration (possibly of an earlier field) left behind, and raise
`UnboundLocalError` (modelled as `.error`) when no iteration ever ran. -/
def dcFlushFields (now : ℚ) :
    Option DCCarry → List (MField DutyCycleP) → Except Unit (List (MField DutyCycleP))
  | _, [] => .ok []
  | c, f :: rest =>
    match dcCredit now c f.payload.actuals with
    | none => .error ()
    | some cr =>
      let full_cycle := cr.on_cycle + cr.off_cycle
      let values' := if full_cycle > 0 then alSet f.payload.values cr.v_name (cr.on_cycle / full_cycle)
                     else f.payload.values
      let new_value : DCValue :=
        { on_off := cr.vals.on_off, timestamp := now, off_cycle := 0, on_cycle := 0 }
      let actuals' := alSet f.payload.actuals cr.v_name new_value
      match dcFlushFields now (some cr) rest with
      | .error e => .error e
      | .ok rest' => .ok ({ f with payload := { values := values', actuals := actuals' } } :: rest')

/-- `DutyCycle.flush` (metrics.py lines 252-273): evict, then run the
per-field loop. -/
def DutyCycle.flush (s : DutyCycle) (now app_time : ℚ) : Except Unit DutyCycle :=
  match dcFlushFields now none (evictFields s.fieldset app_time) with
  | .error e => .error e
  | .ok fs' => .ok { s with fieldset := fs' }

/-! ### Histogram

Bucket bounds are Python floats possibly equal to `float("inf")`, modelled
by `PFloat`.  `sorted(buckets)` is modelled by insertion sort over the
bucket order; `{b: dict() for b in _buckets}` deduplicates bounds keeping
first positions, modelled by `dedupFirst`.
-/

/-- A Python float bucket bound: a rational or `+inf`. -/
inductive PFloat where
  | num : ℚ → PFloat
  | inf : PFloat
deriving DecidableEq, Repr

/-- Comparison on bucket bounds (`inf` is the top). -/
def ple : PFloat → PFloat → Bool
  | _, .inf => true
  | .inf, .num _ => false
  | .num a, .num b => a ≤ b

/-- `ple` as a relation, for use with `List.insertionSort`. -/
def pleP (a b : PFloat) : Prop := ple a b = true

instance : DecidableRel pleP := fun a b =>
  inferInstanceAs (Decidable (ple a b = true))

instance : IsTotal PFloat pleP := by
  constructor
  intro a b
  cases a <;> cases b <;> simp [pleP, ple] <;> exact le_total _ _

instance : IsTrans PFloat pleP := by
  constructor
  intro a b c hab hbc
  cases a <;> cases b <;> cases c <;> simp_all [pleP, ple]
  exact le_trans hab hbc

/-- Helper for `dedupFirst`: drop keys already seen. -/
def dedupFirstAux (seen : List PFloat) : List PFloat → List PFloat
  | [] => []
  | x :: xs => if x ∈ seen then dedupFirstAux seen xs else x :: dedupFirstAux (x :: seen) xs

/-- Python `dict` comprehension over a key list: keep the first occurrence
of every key. -/
def dedupFirst (l : List PFloat) : List PFloat :=
  dedupFirstAux [] l

/-- Bucket table of a histogram field:
`{"buckets": {bound: {name: count}}, "sum": ..., "count": ...}`. -/
structure HistData where
  buckets : List (PFloat × PyDict Nat)
  sum : ℚ
  count : Nat
deriving DecidableEq

/-- `Histogram.__init__` (metrics.py lines 308-329): reject bucket lists
that differ from their sorted order, append an implicit `+inf` bound when
the last bound is not `inf`, require at least two bounds, and build the
initial bucket table keyed by the (deduplicated) bounds. -/
def histogram_init (buckets : List PFloat) : Except String HistData :=
  let _buckets := buckets
  if _buckets ≠ List.insertionSort pleP buckets then .error "Buckets not in sorted order"
  else
    let _buckets := if _buckets ≠ [] ∧ _buckets.getLast? ≠ some PFloat.inf
                    then _buckets ++ [PFloat.inf] else _buckets
    if _buckets.length < 2 then .error "Must have at least two buckets"
    else .ok { buckets := (dedupFirst _buckets).map (fun b => (b, ([] : PyDict Nat)))
               sum := 0
               count := 0 }

/-- Payload of a `Histogram` field. -/
structure HistP where
  values : HistData
  actuals : HistData
deriving DecidableEq

/-- The `Histogram` metric after construction. -/
structure Histogram where
  StaticTags : PyDict String
  reset : Bool
  Expiration : ℚ
  Init : HistData
  fieldset : List (MField HistP)
deriving DecidableEq

/-- `Histogram.add_field` (metrics.py lines 331-339). -/
def Histogram.add_field (s : Histogram) (app_time : ℚ) (tags : PyDict String) :
    MField HistP :=
  { tags := tags
    payload := { values := s.Init, actuals := s.Init }
    expires_at := app_time + s.Expiration }

/-- `locate_field` specialised to a histogram. -/
def Histogram.locate (s : Histogram) (tags : Option (PyDict String)) (app_time : ℚ) :
    List (MField HistP) × Nat :=
  locate_field s.fieldset s.StaticTags tags (s.add_field app_time)

/-- `Histogram.set` (metrics.py lines 351-365): bump the per-name count of
every bucket whose upper bound admits the value, add to `sum`, increment
`count`, refresh `expires_at`. -/
def Histogram.set (s : Histogram) (value_name : String) (value : ℚ)
    (tags : Option (PyDict String)) (app_time : ℚ) : Histogram :=
  let fi := Histogram.locate s tags app_time
  { s with fieldset := listModify fi.1 fi.2 (fun f =>
      let buckets := f.payload.actuals.buckets.map (fun b =>
        if ple (.num value) b.1 then
          match alGet b.2 value_name with
          | none => (b.1, alSet b.2 value_name 1)
          | some c => (b.1, alSet b.2 value_name (c + 1))
        else b)
      { f with
        payload := { f.payload with actuals :=
          { buckets := buckets
            sum := f.payload.actuals.sum + value
            count := f.payload.actuals.count + 1 } }
        expires_at := app_time + s.Expiration }) }

/-- `Histogram.flush` (metrics.py lines 341-349). -/
def Histogram.flush (s : Histogram) (app_time : ℚ) : Histogram :=
  let fs := evictFields s.fieldset app_time
  if s.reset then
    { s with fieldset := fs.map (fun f =>
        { f with payload := { values := f.payload.actuals, actuals := s.Init } }) }
  else
    { s with fieldset := fs.map (fun f =>
        { f with payload := { f.payload with values := f.payload.actuals } }) }

/-! ### Alert providers

Source: `bspump/asab/alert.py`, `AlertAsyncProviderABC`.  The state is the
`MainTask` slot; tasks are identified by numbers.  `_main_done` is the done
callback: when the provider was finalized (`MainTask is None`) it returns;
otherwise `self.MainTask.result()` re-raises the task's exception — so only
a normally completed task reaches the restart lines below it.
-/

/-- State of an `AlertAsyncProviderABC`: the current worker task (if any)
and a counter producing fresh task identities. -/
structure ProviderState where
  MainTask : Option Nat
  nextTaskId : Nat
deriving DecidableEq, Repr

/-- `AlertAsyncProviderABC._start_main_task` (alert.py lines 66-69):
install a fresh worker task. -/
def start_main_task (s : ProviderState) : ProviderState :=
  { MainTask := some s.nextTaskId, nextTaskId := s.nextTaskId + 1 }

/-- `AlertAsyncProviderABC._main_done` (alert.py lines 71-78), given the
finished task's outcome.  `self.MainTask.result()` re-raises an abnormal
outcome, aborting the callback before the restart. -/
def main_done (s : ProviderState) (result : Except String Unit) :
    Except String ProviderState :=
  match s.MainTask with
  | none => .ok s
  | some _ =>
    match result with
    | .error e => .error e
    | .ok _ => .ok (start_main_task { s with MainTask := none })

/-! ### Run-time tick governor

Source: `asab/application.py`, `Application._run_time_governor`
(lines 198-222): each tick timeout publishes `Application.tick!` and the
`tick/N!` topics whose modulus divides the 1-based cycle number.
-/

/-- The pubsub topics published by one tick timeout at cycle `cycle_no`. -/
def tick_publishes (cycle_no : Nat) : List String :=
  ["Application.tick!"]
  ++ (if cycle_no % 10 = 0 then ["Application.tick/10!"] else [])
  ++ (if cycle_no % 60 = 0 then ["Application.tick/60!"] else [])
  ++ (if cycle_no % 300 = 0 then ["Application.tick/300!"] else [])
  ++ (if cycle_no % 600 = 0 then ["Application.tick/600!"] else [])
  ++ (if cycle_no % 1800 = 0 then ["Application.tick/1800!"] else [])
  ++ (if cycle_no % 3600 = 0 then ["Application.tick/3600!"] else [])
  ++ (if cycle_no % 43200 = 0 then ["Application.tick/43200!"] else [])
  ++ (if cycle_no % 86400 = 0 then ["Application.tick/86400!"] else [])

/-- All topics published over a run of `n` ticks (`itertools.count(1)`
numbers cycles from 1). -/
def governor_run (n : Nat) : List String :=
  ((List.range n).map (fun i => tick_publishes (i + 1))).flatten

/-! ### MySQL lookup cache

Source: `bspump/mysql/lookup.py`, `MySQLLookup.__getitem__` (lines
114-123).  The database is a function from keys to an optional row
(`fetchone` returns a row or `None`); `Queries` counts executed statements.
The cache stores exactly what `_find_one` returned, including `None`.
-/

/-- A database row, an opaque record. -/
abbrev DBRow := PyDict String

/-- State of a `MySQLLookup`: the cache, the `hit`/`miss` counter metric
(a `Counter` as created with `init_values={'hit': 0, 'miss': 0}`) and the
number of synchronous queries executed so far. -/
structure MySQLLookup where
  Cache : PyDict (Option DBRow)
  CacheCounter : Counter
  Queries : Nat

/-- `MySQLLookup._find_one` (lookup.py lines 88-92): execute the find-one
query and return `fetchone`'s result. -/
def MySQLLookup.find_one (db : String → Option DBRow) (s : MySQLLookup) (key : String) :
    Option DBRow × MySQLLookup :=
  (db key, { s with Queries := s.Queries + 1 })

/-- `MySQLLookup.__getitem__` (lookup.py lines 114-123): serve from the
cache counting a `hit`; on `KeyError` run `_find_one`, cache its result
(even `None`) and count a `miss`. -/
def MySQLLookup.getitem (db : String → Option DBRow) (s : MySQLLookup) (key : String)
    (app_time : ℚ) : Option DBRow × MySQLLookup :=
  match alGet s.Cache key with
  | some value => (value, { s with CacheCounter := s.CacheCounter.add "hit" 1 none app_time })
  | none =>
    let r := MySQLLookup.find_one db s key
    (r.1, { r.2 with
      Cache := alSet r.2.Cache key r.1
      CacheCounter := r.2.CacheCounter.add "miss" 1 none app_time })

/-! ### Specification-side helpers and concrete states used by the claims -/

/-- The bucket list after the implicit `+inf` append of
`Histogram.__init__`: unchanged when empty or already ending in `inf`. -/
def withInf (bs : List PFloat) : List PFloat :=
  if bs ≠ [] ∧ bs.getLast? ≠ some PFloat.inf then bs ++ [PFloat.inf] else bs

/-- Readout of the `hit` entry of a single-field counter's actuals. -/
def counterHit (c : Counter) : Option ℚ :=
  (c.fieldset[0]?).bind (fun f => alGet f.payload.actuals "hit")

/-- A duty-cycle field holding two names, `a` on since time 0 and `b` off
since time 0. -/
def dcExampleField : MField DutyCycleP :=
  { tags := []
    payload :=
      { values := []
        actuals := [("a", ⟨some true, 0, 0, 0⟩), ("b", ⟨some false, 0, 0, 0⟩)] }
    expires_at := 1000 }

/-- A duty cycle with the two-name field. -/
def dcExample : DutyCycle :=
  { StaticTags := [], Init := [], Expiration := 100, fieldset := [dcExampleField] }

/-- A duty cycle whose only field has no per-name accumulators. -/
def dcEmptyActuals : DutyCycle :=
  { StaticTags := [], Init := [], Expiration := 100
    fieldset := [{ tags := [], payload := { values := [], actuals := [] }, expires_at := 1000 }] }

/-- An EPS counter field with one accumulated event count. -/
def epsField : MField CounterP :=
  { tags := [], payload := { values := [], actuals := [("x", 10)] }, expires_at := 1000 }

/-- An EPS counter whose `LastTime` is 5. -/
def epsExample : EPSCounter :=
  { StaticTags := [], Init := none, reset := false, Expiration := 100
    fieldset := [epsField], LastTime := 5 }

/-- The field of `epsExample` after a flush at `now = 7` (delta 2). -/
def epsFlushedField : MField CounterP :=
  { tags := [], payload := { values := [("x", 5)], actuals := [("x", 10)] }, expires_at := 1000 }

/-- A reset-mode counter holding an accumulated value. -/
def ctrExample : Counter :=
  { StaticTags := [], Init := none, reset := true, Expiration := 100
    fieldset := [{ tags := [], payload := { values := [], actuals := [("a", 5)] }
                   expires_at := 1000 }] }

/-- A duty cycle with a single stale field (`expires_at = 0`) holding one
accumulator for name `y`, on since time 0. -/
def dcStale : DutyCycle :=
  { StaticTags := [], Init := [], Expiration := 5
    fieldset := [{ tags := []
                   payload := { values := [], actuals := [("y", ⟨some true, 0, 0, 0⟩)] }
                   expires_at := 0 }] }

/-- One iteration of the inner loop of `DutyCycle.flush`: the carry left by
processing entry `p` at time `now`. -/
def dcStep (now : ℚ) (p : String × DCValue) : DCCarry :=
  if p.2.on_off = some true then
    ⟨p.1, p.2, p.2.off_cycle, p.2.on_cycle + (now - p.2.timestamp)⟩
  else
    ⟨p.1, p.2, p.2.off_cycle + (now - p.2.timestamp), p.2.on_cycle⟩

/-- A duty-cycle field is rolled at `now` when its last accumulator entry
is a fresh one stamped at `now` and re-rolling it changes nothing: the
state every field is left in by a successful `DutyCycle.flush` at `now`. -/
def dcRolled (now : ℚ) (f : MField DutyCycleP) : Prop :=
  ∃ k o, f.payload.actuals.getLast? = some (k, ⟨o, now, 0, 0⟩)
    ∧ alSet f.payload.actuals k ⟨o, now, 0, 0⟩ = f.payload.actuals

/-- A gauge with one field. -/
def gaugeToy : Gauge :=
  { StaticTags := [], Init := none, Expiration := 5
    fieldset := [{ tags := [], payload := { values := [("g", 3)] }, expires_at := 9 }] }

/-- A counter with reset mode off. -/
def ctrNoReset : Counter :=
  { StaticTags := [], Init := none, reset := false, Expiration := 5
    fieldset := [{ tags := [], payload := { values := [], actuals := [("a", 5)] }
                   expires_at := 9 }] }

/-- The state `dcExample` reaches after a flush at `now = 10`. -/
def dcFlushed : DutyCycle :=
  { StaticTags := [], Init := [], Expiration := 100
    fieldset := [{ tags := []
                   payload :=
                     { values := [("b", 0)]
                       actuals := [("a", ⟨some true, 0, 0, 0⟩), ("b", ⟨some false, 10, 0, 0⟩)] }
                   expires_at := 1000 }] }

/-- A database with no rows: every `fetchone` returns `None`. -/
def dbEmpty : String → Option DBRow := fun _ => none

/-- A fresh MySQL lookup: empty cache, the `hit`/`miss` counter as created
by `create_counter(..., init_values={'hit': 0, 'miss': 0})`, no queries. -/
def lookupToy : MySQLLookup :=
  { Cache := []
    CacheCounter :=
      { StaticTags := [], Init := some [("hit", 0), ("miss", 0)], reset := false
        Expiration := 5
        fieldset := [{ tags := []
                       payload := { values := [("hit", 0), ("miss", 0)]
                                    actuals := [("hit", 0), ("miss", 0)] }
                       expires_at := 5 }] }
    Queries := 0 }

/-- The bucket table produced by `Histogram.__init__` on `[1, 5, 10]`. -/
def histToy : HistData :=
  { buckets := [(PFloat.num 1, []), (PFloat.num 5, []), (PFloat.num 10, []), (PFloat.inf, [])]
    sum := 0, count := 0 }

/-- A histogram metric with reset mode off and one empty field. -/
def histMetricToy : Histogram :=
  { StaticTags := [], reset := false, Expiration := 5, Init := histToy
    fieldset := [{ tags := [], payload := { values := histToy, actuals := histToy }
                   expires_at := 9 }] }


/-! ## Claim theorems -/

theorem alGet_replace_self {α : Type} (k : String) (v : α) :
    ∀ l : PyDict α, (alGet l k).isSome →
      alGet (l.map (fun p => if p.1 = k then (k, v) else p)) k = some v := by
  intro l
  induction l with
  | nil => simp [alGet]
  | cons p rest ih =>
    obtain ⟨k₁, v₁⟩ := p
    intro hsome
    simp only [List.map_cons]
    by_cases hk : (k₁, v₁).1 = k
    · rw [if_pos hk]
      simp [alGet]
    · rw [if_neg hk]
      have hk' : ¬(k = k₁) := fun h => hk h.symm
      simp only [alGet, if_neg hk'] at hsome
      simpa [alGet, hk'] using ih hsome

theorem alGet_replace_ne {α : Type} (k k' : String) (v : α) (h : k' ≠ k) :
    ∀ l : PyDict α,
      alGet (l.map (fun p => if p.1 = k then (k, v) else p)) k' = alGet l k' := by
  intro l
  induction l with
  | nil => simp [alGet]
  | cons p rest ih =>
    obtain ⟨k₁, v₁⟩ := p
    simp only [List.map_cons]
    by_cases hk : (k₁, v₁).1 = k
    · rw [if_pos hk]
      have h1 : ¬(k' = k) := h
      have h2 : ¬(k' = k₁) := fun hh => h (hh.trans hk)
      simpa [alGet, h1, h2] using ih
    · rw [if_neg hk]
      by_cases hk' : k' = k₁
      · simp [alGet, hk']
      · simpa [alGet, hk'] using ih

theorem alGet_append_self {α : Type} (k : String) (v : α) :
    ∀ l : PyDict α, alGet l k = none → alGet (l ++ [(k, v)]) k = some v := by
  intro l
  induction l with
  | nil => simp [alGet]
  | cons p rest ih =>
    obtain ⟨k₁, v₁⟩ := p
    intro hnone
    by_cases hk : k = k₁
    · simp [alGet, hk] at hnone
    · simp only [alGet, if_neg hk] at hnone
      simpa [alGet, hk] using ih hnone

theorem alGet_append_ne {α : Type} (k k' : String) (v : α) (h : k' ≠ k) :
    ∀ l : PyDict α, alGet (l ++ [(k, v)]) k' = alGet l k' := by
  intro l
  induction l with
  | nil => simp [alGet, h]
  | cons p rest ih =>
    obtain ⟨k₁, v₁⟩ := p
    by_cases hk' : k' = k₁
    · simp [alGet, hk']
    · simpa [alGet, hk'] using ih

theorem alGet_alSet_self {α : Type} (l : PyDict α) (k : String) (v : α) :
    alGet (alSet l k v) k = some v := by
  unfold alSet alHas
  by_cases hsome : (alGet l k).isSome
  · simpa [hsome] using alGet_replace_self k v l hsome
  · have hnone : alGet l k = none := by
      cases hget : alGet l k with
      | none => rfl
      | some w => simp [hget] at hsome
    simpa [hsome] using alGet_append_self k v l hnone

theorem alGet_alSet_ne {α : Type} (l : PyDict α) (k k' : String) (v : α)
    (h : k' ≠ k) : alGet (alSet l k v) k' = alGet l k' := by
  unfold alSet alHas
  by_cases hsome : (alGet l k).isSome
  · simpa [hsome] using alGet_replace_ne k k' v h l
  · simpa [hsome] using alGet_append_ne k k' v h l

/-- C1: the spec claims `EQUALS` returns true iff the evaluated values of
all items are pairwise equal, in particular true on three items evaluating
to `2, 2, 2`.  The code disagrees with its own docstring ("Checks if all
expressions equal"): the reduce chains the boolean of the first comparison
into the next one, `(2 == 2) == 2` is `True == 2` which is Python-`False`,
so three pairwise-equal items yield `False`. -/
theorem C1_equals_three_equal_items :
    EQUALS_call [constExpr (.vint 2), constExpr (.vint 2), constExpr (.vint 2)] () ()
      = some (.val (.vbool false))
    ∧ allPairwiseEq [.vint 2, .vint 2, .vint 2] = true :=
  ⟨rfl, rfl⟩

/-- C3 (amended): the worker task is restarted only when it completes
normally while the provider is not finalized; when it exits with an
exception, `self.MainTask.result()` re-raises inside the done callback and
no replacement task is started; when the provider was finalized the
callback is a no-op. -/
theorem C3_restart_on_normal_exit_only :
    (∀ (s : ProviderState) (r : Except String Unit),
      s.MainTask = none → main_done s r = .ok s)
    ∧ (∀ (s : ProviderState) (i : Nat), s.MainTask = some i →
        main_done s (.ok ()) = .ok ⟨some s.nextTaskId, s.nextTaskId + 1⟩)
    ∧ (∀ (s : ProviderState) (i : Nat) (e : String), s.MainTask = some i →
        main_done s (.error e) = .error e) := by
  refine ⟨?_, ?_, ?_⟩
  · intro s r h
    simp [main_done, h]
  · intro s i h
    simp [main_done, h, start_main_task]
  · intro s i e h
    simp [main_done, h]

/-- C3 witness: the three behaviours at concrete states. -/
theorem C3_restart_on_normal_exit_only_witness :
    main_done ⟨some 5, 6⟩ (.ok ()) = .ok ⟨some 6, 7⟩
    ∧ main_done ⟨none, 3⟩ (.ok ()) = .ok ⟨none, 3⟩
    ∧ main_done ⟨some 5, 6⟩ (.error "boom") = .error "boom" :=
  ⟨C3_restart_on_normal_exit_only.2.1 ⟨some 5, 6⟩ 5 rfl,
   C3_restart_on_normal_exit_only.1 ⟨none, 3⟩ (.ok ()) rfl,
   C3_restart_on_normal_exit_only.2.2 ⟨some 5, 6⟩ 5 "boom" rfl⟩

/-- C3 counterexample: a worker that exits by raising, with the provider
not finalized, does not get a new task started in its place — the done
callback re-raises the exception instead of restarting. -/
theorem C3_counterexample :
    main_done ⟨some 0, 1⟩ (.error "boom") = .error "boom" := rfl

theorem count_ite_single {P : Prop} [Decidable P] (s t : String) :
    ((if P then [s] else []) : List String).count t
      = if P then (if s = t then 1 else 0) else 0 := by
  split
  · simp [List.count_cons]
  · simp

theorem mem_ite_single {P : Prop} [Decidable P] (s t : String) :
    (t ∈ (if P then [s] else [])) ↔ (P ∧ t = s) := by
  split <;> simp_all

/-- C8: each tick timeout publishes `Application.tick!` exactly once and
`Application.tick/N!` exactly when the 1-based cycle number is a multiple
of `N`; a 65-tick run publishes `tick!` 65 times, `tick/10!` 6 times and
`tick/60!` once. -/
theorem C8_tick_governor :
    (∀ c : Nat, (tick_publishes c).count "Application.tick!" = 1)
    ∧ (∀ c : Nat, ("Application.tick/10!" ∈ tick_publishes c ↔ c % 10 = 0))
    ∧ (∀ c : Nat, ("Application.tick/60!" ∈ tick_publishes c ↔ c % 60 = 0))
    ∧ (∀ c : Nat, ("Application.tick/300!" ∈ tick_publishes c ↔ c % 300 = 0))
    ∧ (∀ c : Nat, ("Application.tick/600!" ∈ tick_publishes c ↔ c % 600 = 0))
    ∧ (∀ c : Nat, ("Application.tick/1800!" ∈ tick_publishes c ↔ c % 1800 = 0))
    ∧ (∀ c : Nat, ("Application.tick/3600!" ∈ tick_publishes c ↔ c % 3600 = 0))
    ∧ (∀ c : Nat, ("Application.tick/43200!" ∈ tick_publishes c ↔ c % 43200 = 0))
    ∧ (∀ c : Nat, ("Application.tick/86400!" ∈ tick_publishes c ↔ c % 86400 = 0))
    ∧ (governor_run 65).count "Application.tick!" = 65
    ∧ (governor_run 65).count "Application.tick/10!" = 6
    ∧ (governor_run 65).count "Application.tick/60!" = 1 := by
  refine ⟨?_, ?_, ?_, ?_, ?_, ?_, ?_, ?_, ?_, by decide, by decide, by decide⟩
  · intro c
    simp only [tick_publishes, List.count_append, count_ite_single]
    simp
  all_goals
    intro c
    simp only [tick_publishes, List.mem_append, List.mem_singleton, mem_ite_single]
    simp


theorem firstFalsyOrLast_falsy (acc : PyVal) (h : acc.truthy = false) :
    ∀ l : List PyVal, firstFalsyOrLast acc l = acc := by
  intro l
  cases l with
  | nil => rfl
  | cons w ws => simp [firstFalsyOrLast, h]

theorem andFold_eq {Ctx Ev : Type} (ctx : Ctx) (ev : Ev) :
    ∀ (rest : List (Expression Ctx Ev)) (acc : PyVal),
      rest.foldl (fun acc e => pyAnd acc (fun _ => e.eval ctx ev)) acc
        = firstFalsyOrLast acc (rest.map (fun e => e.eval ctx ev)) := by
  intro rest
  induction rest with
  | nil => intro acc; rfl
  | cons e rest ih =>
    intro acc
    rw [List.foldl_cons, List.map_cons]
    by_cases h : acc.truthy
    · have h1 : pyAnd acc (fun _ => e.eval ctx ev) = e.eval ctx ev := by
        simp [pyAnd, h]
      rw [h1, ih (e.eval ctx ev)]
      simp [firstFalsyOrLast, h]
    · have h1 : pyAnd acc (fun _ => e.eval ctx ev) = acc := by
        simp [pyAnd, h]
      rw [h1, ih acc, firstFalsyOrLast_falsy acc (by simpa using h)]
      simp [firstFalsyOrLast, h]

theorem andCount_falsy (acc : PyVal) (h : acc.truthy = false) :
    ∀ l : List PyVal, andCount acc l = 0 := by
  intro l
  cases l with
  | nil => rfl
  | cons v vs => simp [andCount, h]

theorem andGoTrace_snd {Ctx Ev : Type} (ctx : Ctx) (ev : Ev) :
    ∀ (rest : List (Expression Ctx Ev)) (acc : PyVal) (i : Nat),
      (andGoTrace ctx ev acc i rest).2
        = List.range' i (andCount acc (rest.map (fun e => e.eval ctx ev))) := by
  intro rest
  induction rest with
  | nil => intro acc i; simp [andGoTrace, andCount]
  | cons e rest ih =>
    intro acc i
    by_cases h : acc.truthy
    · simp only [andGoTrace, h, if_true, List.map_cons, andCount]
      rw [ih (e.eval ctx ev) (i + 1)]
      rw [Nat.add_comm 1 (andCount (e.eval ctx ev) (rest.map (fun e => e.eval ctx ev)))]
      rw [List.range'_succ]
    · simp [andGoTrace, h, List.map_cons, andCount]

theorem andCount_eq_firstStop :
    ∀ (vs : List PyVal) (v : PyVal), andCount v vs = firstStop (v :: vs) := by
  intro vs
  induction vs with
  | nil => intro v; rfl
  | cons w ws ih =>
    intro v
    by_cases h : v.truthy
    · simp [andCount, firstStop, h, ih w, Nat.add_comm]
    · simp [andCount, firstStop, h]

/-- C9 (amended): for two or more items, `AND` evaluates the items in order
and returns the value of the first falsy item, or the last item's value
when all are truthy, evaluating exactly the items up to and including the
stopping point; with a single item, however, the `reduce` returns the
`Expression` object itself, unevaluated. -/
theorem C9_and_short_circuit {Ctx Ev : Type} :
    (∀ (e0 e1 : Expression Ctx Ev) (rest : List (Expression Ctx Ev)) (ctx : Ctx) (ev : Ev),
      AND_call (e0 :: e1 :: rest) ctx ev
        = some (.val (firstFalsyOrLast (e0.eval ctx ev)
            ((e1 :: rest).map (fun e => e.eval ctx ev)))))
    ∧ (∀ (e0 e1 : Expression Ctx Ev) (rest : List (Expression Ctx Ev)) (ctx : Ctx) (ev : Ev),
      (AND_call_trace (e0 :: e1 :: rest) ctx ev).map Prod.snd
        = some (List.range
            (firstStop ((e0 :: e1 :: rest).map (fun e => e.eval ctx ev)) + 1)))
    ∧ (∀ (e : Expression Ctx Ev) (ctx : Ctx) (ev : Ev),
      AND_call [e] ctx ev = some (.exprObj e)) := by
  refine ⟨?_, ?_, ?_⟩
  · intro e0 e1 rest ctx ev
    simp only [AND_call, List.map_cons]
    by_cases h : (e0.eval ctx ev).truthy
    · have h1 : pyAnd (e0.eval ctx ev) (fun _ => e1.eval ctx ev) = e1.eval ctx ev := by
        simp [pyAnd, h]
      rw [h1, andFold_eq ctx ev rest (e1.eval ctx ev)]
      simp [firstFalsyOrLast, h]
    · have h1 : pyAnd (e0.eval ctx ev) (fun _ => e1.eval ctx ev) = e0.eval ctx ev := by
        simp [pyAnd, h]
      rw [h1, andFold_eq ctx ev rest (e0.eval ctx ev)]
      rw [firstFalsyOrLast_falsy _ (by simpa using h)]
      simp [firstFalsyOrLast, h]
  · intro e0 e1 rest ctx ev
    by_cases h : (e0.eval ctx ev).truthy
    · simp only [AND_call_trace, h, if_true, List.map_cons]
      rw [andGoTrace_snd ctx ev rest (e1.eval ctx ev) 2]
      rw [andCount_eq_firstStop]
      simp only [Option.map_some']
      rw [List.range_eq_range']
      have hr : ([0, 1] : List Nat) = List.range' 0 2 := rfl
      rw [hr]
      rw [show List.range' 2 (firstStop (e1.eval ctx ev :: rest.map (fun e => e.eval ctx ev)))
            = List.range' (0 + 2) (firstStop (e1.eval ctx ev :: rest.map (fun e => e.eval ctx ev))) from rfl]
      rw [List.range'_append]
      simp only [firstStop, h, if_true]
    · simp only [AND_call_trace, h, Bool.false_eq_true, if_false, List.map_cons]
      rw [andGoTrace_snd ctx ev rest (e0.eval ctx ev) 2]
      rw [andCount_falsy _ (by simpa using h)]
      simp [firstStop, h, List.range_eq_range']
  · intro e ctx ev
    rfl

/-- C9 counterexample: with a single item evaluating to Python `False`,
`AND.__call__` returns the unevaluated `Expression` object itself (a truthy
value), not the item's evaluated value. -/
theorem C9_counterexample :
    AND_call [constExpr (.vbool false)] () () = some (.exprObj (constExpr (.vbool false)))
    ∧ (AND_call [constExpr (.vbool false)] () ()).map CallResult.isVal = some false :=
  ⟨rfl, rfl⟩

/-- C5: the claim says `DutyCycle.flush` writes `values[name]` and rolls the
accumulator for every name in the field.  The ratio write and the roll sit
one indentation level too shallow in the source — outside the per-name
loop — so only the name iterated last is processed: here `values` gains only
`"b"` (the last entry) while `"a"`, on for the whole interval, gets no ratio
and keeps its stale accumulator; moreover a field whose `actuals` is empty
raises `UnboundLocalError`. -/
theorem C5_flush_credits_only_last_name :
    (DutyCycle.flush dcExample 10 0).toOption.map (fun s' => s'.fieldset.map (fun f =>
        (alGet f.payload.values "a", alGet f.payload.values "b",
         alGet f.payload.actuals "a")))
      = some [(none, some 0, some ⟨some true, 0, 0, 0⟩)]
    ∧ DutyCycle.flush dcEmptyActuals 10 0 = .error () := by
  constructor
  · norm_num [DutyCycle.flush, dcFlushFields, dcCredit, evictFields, dcExample,
      dcExampleField, alSet, alHas, alGet, Except.toOption]
    intro h
    exact absurd h (by decide)
  · norm_num [DutyCycle.flush, dcFlushFields, dcCredit, evictFields, dcEmptyActuals]

theorem alGet_map_snd {α β : Type} (g : α → β) (k : String) :
    ∀ l : PyDict α, alGet (l.map (fun p => (p.1, g p.2))) k = (alGet l k).map g := by
  intro l
  induction l with
  | nil => simp [alGet]
  | cons p rest ih =>
    obtain ⟨k₁, v₁⟩ := p
    by_cases hk : k = k₁
    · simp [alGet, hk]
    · simpa [alGet, hk] using ih

/-- C6 (amended): when `now - LastTime > 0`, `EPSCounter.flush` sets each
`values` entry to the matching `actuals` entry divided by that delta (and,
in reset mode, reinitialises `actuals` and stamps `LastTime = now` provided
a field survived eviction); when `now - LastTime ≤ 0` the flush is skipped
after eviction — `values` is left untouched, with no minimum-one-tick
divisor. -/
theorem C6_eps_flush :
    ∀ (s : EPSCounter) (now app_time : ℚ),
      (now - s.LastTime ≤ 0 →
        EPSCounter.flush s now app_time
          = { s with toCounter := { s.toCounter with fieldset := evictFields s.fieldset app_time } })
      ∧ (0 < now - s.LastTime →
        ∀ (i : Nat) (f f' : MField CounterP), (evictFields s.fieldset app_time)[i]? = some f →
          (EPSCounter.flush s now app_time).fieldset[i]? = some f' →
          (∀ k, alGet f'.payload.values k
                = (alGet f.payload.actuals k).map (fun v => v / (now - s.LastTime)))
            ∧ f'.payload.actuals = (if s.reset then s.Init.getD [] else f.payload.actuals)
            ∧ f'.expires_at = f.expires_at ∧ f'.tags = f.tags)
      ∧ (0 < now - s.LastTime →
        (EPSCounter.flush s now app_time).LastTime
          = if s.reset ∧ evictFields s.fieldset app_time ≠ [] then now else s.LastTime) := by
  intro s now app_time
  refine ⟨?_, ?_, ?_⟩
  · intro h
    simp only [EPSCounter.flush]
    rw [if_pos h]
  · intro h i f f' hf hf'
    have hne : ¬(now - s.LastTime ≤ 0) := not_le.mpr h
    simp only [EPSCounter.flush] at hf'
    rw [if_neg hne] at hf'
    simp only [List.getElem?_map, hf, Option.map_some', Option.some_inj] at hf'
    subst hf'
    refine ⟨?_, rfl, rfl, rfl⟩
    intro k
    exact alGet_map_snd (fun v => v / (now - s.LastTime)) k f.payload.actuals
  · intro h
    have hne : ¬(now - s.LastTime ≤ 0) := not_le.mpr h
    simp only [EPSCounter.flush]
    rw [if_neg hne]

/-- C6 counterexample: with `now` equal to `LastTime` the flush is skipped
entirely — `values` stays empty and `actuals` is untouched — whereas the
claim requires `values["x"]` to be set using a divisor of at least one
tick. -/
theorem C6_counterexample :
    ((EPSCounter.flush epsExample 5 0).fieldset.head?).map (fun f => alGet f.payload.values "x")
      = some none
    ∧ ((EPSCounter.flush epsExample 5 0).fieldset.head?).map (fun f => alGet f.payload.actuals "x")
      = some (some 10) := by
  constructor
  · norm_num [EPSCounter.flush, evictFields, epsExample, epsField, alGet]
  · norm_num [EPSCounter.flush, evictFields, epsExample, epsField, alGet]

/-- C6 witness: the amended flush at a concrete state with positive delta. -/
theorem C6_eps_flush_witness :
    (∀ k, alGet epsFlushedField.payload.values k
          = (alGet epsField.payload.actuals k).map (fun v => v / (7 - epsExample.LastTime)))
      ∧ epsFlushedField.payload.actuals
          = (if epsExample.reset then epsExample.Init.getD [] else epsField.payload.actuals)
      ∧ epsFlushedField.expires_at = epsField.expires_at
      ∧ epsFlushedField.tags = epsField.tags := by
  exact (C6_eps_flush epsExample 7 0).2.1 (by norm_num [epsExample]) 0 epsField epsFlushedField
      (by decide)
      (by norm_num [EPSCounter.flush, evictFields, epsExample, epsField, epsFlushedField])

theorem sorted_self_iff_chain (l : List PFloat) :
    l = List.insertionSort pleP l ↔ List.Chain' pleP l := by
  constructor
  · intro h
    have hs : List.Sorted pleP (List.insertionSort pleP l) := List.sorted_insertionSort pleP l
    rw [← h] at hs
    exact List.chain'_iff_pairwise.mpr hs
  · intro h
    exact (List.Sorted.insertionSort_eq (List.chain'_iff_pairwise.mp h)).symm

/-- C7 (amended): `Histogram.__init__` checks `sorted(buckets)` — a
non-strict, non-decreasing order — so duplicated bounds are accepted (they
collapse into a single bucket key); construction succeeds exactly when the
bucket list is non-decreasing and, after the conditional `+inf` append, has
at least two bounds, and the resulting bucket keys are the deduplicated
appended list. -/
theorem C7_histogram_buckets :
    ∀ bs : List PFloat,
      ((histogram_init bs).isOk = true ↔
        (List.Chain' pleP bs ∧ 2 ≤ (withInf bs).length))
      ∧ (∀ hd : HistData, histogram_init bs = .ok hd →
          hd.buckets.map Prod.fst = dedupFirst (withInf bs)) := by
  intro bs
  by_cases hsort : bs = List.insertionSort pleP bs
  · have hchain : List.Chain' pleP bs := (sorted_self_iff_chain bs).mp hsort
    have heq : histogram_init bs
        = if (withInf bs).length < 2 then Except.error "Must have at least two buckets"
          else Except.ok { buckets := (dedupFirst (withInf bs)).map (fun b => (b, ([] : PyDict Nat)))
                           sum := 0
                           count := 0 } := by
      simp only [histogram_init, withInf]
      rw [if_neg (not_not_intro hsort)]
    by_cases hlen : (withInf bs).length < 2
    · rw [heq, if_pos hlen]
      constructor
      · constructor
        · intro h
          simp [Except.isOk, Except.toBool] at h
        · intro ⟨_, hle⟩
          omega
      · intro hd h
        simp at h
    · rw [heq, if_neg hlen]
      constructor
      · constructor
        · intro _
          exact ⟨hchain, by omega⟩
        · intro _
          simp [Except.isOk, Except.toBool]
      · intro hd h
        have : hd = { buckets := (dedupFirst (withInf bs)).map (fun b => (b, ([] : PyDict Nat)))
                      sum := 0
                      count := 0 } := by
          injection h with h'
          exact h'.symm
        subst this
        simp only [List.map_map]
        have hid : (Prod.fst ∘ fun b => (b, ([] : PyDict Nat)))
            = (id : PFloat → PFloat) := rfl
        rw [hid, List.map_id]
  · have hchain : ¬ List.Chain' pleP bs := fun hc => hsort ((sorted_self_iff_chain bs).mpr hc)
    have heq : histogram_init bs = .error "Buckets not in sorted order" := by
      simp only [histogram_init]
      rw [if_pos hsort]
    rw [heq]
    constructor
    · constructor
      · intro h
        simp [Except.isOk, Except.toBool] at h
      · intro ⟨hc, _⟩
        exact absurd hc hchain
    · intro hd h
      simp at h

/-- C7 counterexample: the duplicated bound list `[1, 1]` is not strictly
ascending, yet construction succeeds — the code only compares against
(non-strict) `sorted(buckets)` — and the duplicate collapses, leaving
bucket keys `[1, +inf]`. -/
theorem C7_counterexample :
    (histogram_init [PFloat.num 1, PFloat.num 1]).isOk = true
    ∧ (histogram_init [PFloat.num 1, PFloat.num 1]).toOption.map
        (fun hd => hd.buckets.map Prod.fst) = some [PFloat.num 1, PFloat.inf] := by
  constructor
  · decide
  · decide

/-- C7 witness: construction on the non-decreasing list `[1, 5, 10]`
succeeds and appends the implicit `+inf` bucket. -/
theorem C7_histogram_buckets_witness :
    histToy.buckets.map Prod.fst
      = dedupFirst (withInf [PFloat.num 1, PFloat.num 5, PFloat.num 10]) :=
  (C7_histogram_buckets [PFloat.num 1, PFloat.num 5, PFloat.num 10]).2 histToy (by rfl)

theorem listModify_get {β : Type} (l : List β) (i : Nat) (g : β → β) (x : β)
    (h : l[i]? = some x) : (listModify l i g)[i]? = some (g x) := by
  unfold listModify
  rw [h]
  have hi : i < l.length := by
    rcases List.getElem?_eq_some_iff.mp h with ⟨hlt, _⟩
    exact hlt
  exact List.getElem?_set_self hi

theorem locate_field_get {P : Type} (fieldset : List (MField P)) (StaticTags : PyDict String)
    (tags : Option (PyDict String)) (mk : PyDict String → MField P) :
    ∃ f, (locate_field fieldset StaticTags tags mk).1[(locate_field fieldset StaticTags tags mk).2]?
      = some f := by
  have hseek : ∀ tgs : PyDict String,
      ∃ f, (match fieldset.findIdx? (fun fd : MField P => dictEqv fd.tags tgs) with
            | some i => (fieldset, i)
            | none => (fieldset ++ [mk tgs], fieldset.length)).1[
          (match fieldset.findIdx? (fun fd : MField P => dictEqv fd.tags tgs) with
            | some i => (fieldset, i)
            | none => (fieldset ++ [mk tgs], fieldset.length)).2]? = some f := by
    intro tgs
    cases hidx : fieldset.findIdx? (fun fd : MField P => dictEqv fd.tags tgs) with
    | some i =>
      have hlt : i < fieldset.length :=
        (List.findIdx?_eq_some_iff_findIdx_eq.mp hidx).1
      exact ⟨fieldset[i], List.getElem?_eq_getElem hlt⟩
    | none =>
      exact ⟨mk tgs, List.getElem?_concat_length fieldset (mk tgs)⟩
  unfold locate_field
  cases tags with
  | none =>
    by_cases hlen : fieldset.length = 1
    · rcases List.length_eq_one.mp hlen with ⟨f, rfl⟩
      exact ⟨f, by simp [hlen]⟩
    · simpa [hlen] using hseek StaticTags
  | some t =>
    simpa using hseek (dictUpdate t StaticTags)

/-- C4 (amended): `Gauge.set`, `Counter.add`, `Counter.sub`,
`AggregationCounter.set` and `Histogram.set` always leave the located
field's `expires_at` equal to the current application time plus the
configured expiration; `DutyCycle.set` does so only on its switch path —
its early returns (fresh per-name value, unchanged on/off state) leave
`expires_at` untouched. -/
theorem C4_expiration_refresh :
    (∀ (s : Gauge) (name : String) (value : ℚ) (tags : Option (PyDict String)) (t : ℚ),
      ∃ f', (Gauge.set s name value tags t).fieldset[(Gauge.locate s tags t).2]? = some f'
        ∧ f'.expires_at = t + s.Expiration)
    ∧ (∀ (s : Counter) (name : String) (value : ℚ) (tags : Option (PyDict String)) (t : ℚ),
      ∃ f', (Counter.add s name value tags t).fieldset[(Counter.locate s tags t).2]? = some f'
        ∧ f'.expires_at = t + s.Expiration)
    ∧ (∀ (s : Counter) (name : String) (value : ℚ) (tags : Option (PyDict String)) (t : ℚ),
      ∃ f', (Counter.sub s name value tags t).fieldset[(Counter.locate s tags t).2]? = some f'
        ∧ f'.expires_at = t + s.Expiration)
    ∧ (∀ (s : AggregationCounter) (name : String) (value : ℚ) (tags : Option (PyDict String)) (t : ℚ),
      ∃ f', (AggregationCounter.set s name value tags t).fieldset[
          (Counter.locate s.toCounter tags t).2]? = some f'
        ∧ f'.expires_at = t + s.Expiration)
    ∧ (∀ (s : Histogram) (name : String) (value : ℚ) (tags : Option (PyDict String)) (t : ℚ),
      ∃ f', (Histogram.set s name value tags t).fieldset[(Histogram.locate s tags t).2]? = some f'
        ∧ f'.expires_at = t + s.Expiration)
    ∧ (∀ (s : DutyCycle) (name : String) (on_off : Bool) (tags : Option (PyDict String))
        (loop_time t : ℚ) (fld : MField DutyCycleP) (dv : DCValue),
        (DutyCycle.locate s tags t).1[(DutyCycle.locate s tags t).2]? = some fld →
        alGet fld.payload.actuals name = some dv →
        dv.on_off ≠ some on_off →
        ∃ f', (DutyCycle.set s name on_off tags loop_time t).fieldset[
            (DutyCycle.locate s tags t).2]? = some f'
          ∧ f'.expires_at = t + s.Expiration) := by
  refine ⟨?_, ?_, ?_, ?_, ?_, ?_⟩
  · intro s name value tags t
    obtain ⟨f, hf⟩ := locate_field_get s.fieldset s.StaticTags tags (s.add_field t)
    exact ⟨_, listModify_get _ _ _ f hf, rfl⟩
  · intro s name value tags t
    obtain ⟨f, hf⟩ := locate_field_get s.fieldset s.StaticTags tags (s.add_field t)
    exact ⟨_, listModify_get _ _ _ f hf, rfl⟩
  · intro s name value tags t
    obtain ⟨f, hf⟩ := locate_field_get s.fieldset s.StaticTags tags (s.add_field t)
    exact ⟨_, listModify_get _ _ _ f hf, rfl⟩
  · intro s name value tags t
    obtain ⟨f, hf⟩ := locate_field_get s.fieldset s.StaticTags tags (s.toCounter.add_field t)
    exact ⟨_, listModify_get _ _ _ f hf, rfl⟩
  · intro s name value tags t
    obtain ⟨f, hf⟩ := locate_field_get s.fieldset s.StaticTags tags (s.add_field t)
    exact ⟨_, listModify_get _ _ _ f hf, rfl⟩
  · intro s name on_off tags loop_time t fld dv hfld hdv hne
    refine ⟨_, listModify_get _ _ _ fld hfld, ?_⟩
    simp only [hdv]
    rw [if_neg hne]

/-- C4 counterexample: `DutyCycle.set` on an existing field leaves the old
`expires_at` in place both when it creates a new per-name value (`x`) and
when it observes an unchanged state (`y` already on) — the claim requires
`expires_at = 100 + 5` on those paths. -/
theorem C4_counterexample :
    ((DutyCycle.set dcStale "x" true none 100 100).fieldset.head?).map (fun f => f.expires_at)
      = some 0
    ∧ ((DutyCycle.set dcStale "y" true none 100 100).fieldset.head?).map (fun f => f.expires_at)
      = some 0
    ∧ (0 : ℚ) ≠ 100 + 5 := by
  refine ⟨by decide, by decide, by norm_num⟩

/-- C4 witness: the switch path (`y` goes from on to off) does refresh
`expires_at`. -/
theorem C4_expiration_refresh_witness :
    ∃ f', (DutyCycle.set dcStale "y" false none 100 100).fieldset[
        (DutyCycle.locate dcStale none 100).2]? = some f'
      ∧ f'.expires_at = 100 + dcStale.Expiration :=
  C4_expiration_refresh.2.2.2.2.2 dcStale "y" false none 100 100
    ⟨[], { values := [], actuals := [("y", ⟨some true, 0, 0, 0⟩)] }, 0⟩
    ⟨some true, 0, 0, 0⟩ (by decide) (by decide) (by decide)

theorem counter_add_single (c : Counter) (f : MField CounterP) (hc : c.fieldset = [f])
    (name : String) (v t : ℚ) :
    (Counter.add c name v none t).fieldset
      = [{ f with
            payload := { f.payload with
              actuals := match alGet f.payload.actuals name with
                | some x => alSet f.payload.actuals name (x + v)
                | none => alSet f.payload.actuals name v }
            expires_at := t + c.Expiration }] := by
  simp only [Counter.add, Counter.locate, locate_field, hc]
  norm_num [listModify]

theorem counterHit_add (c : Counter) (t : ℚ) (h : c.fieldset.length = 1) :
    counterHit (Counter.add c "hit" 1 none t) = some ((counterHit c).getD 0 + 1) := by
  rcases List.length_eq_one.mp h with ⟨f, hf⟩
  simp only [counterHit]
  rw [counter_add_single c f hf "hit" 1 t]
  cases hget : alGet f.payload.actuals "hit" with
  | some x =>
    simp only [counterHit, hf, hget]
    simp [alGet_alSet_self, hget]
  | none =>
    simp only [counterHit, hf, hget]
    simp [alGet_alSet_self, hget]

theorem counter_add_length (c : Counter) (name : String) (v t : ℚ)
    (h : c.fieldset.length = 1) : (Counter.add c name v none t).fieldset.length = 1 := by
  rcases List.length_eq_one.mp h with ⟨f, hf⟩
  rw [counter_add_single c f hf name v t]
  rfl

/-- C10: after `__getitem__(k)` returns `v`, a second consecutive
`__getitem__(k)` returns the same `v` from the cache, increments the `hit`
counter by one, and issues no database query — including when `v` is `None`
(a key absent from the database is cached as `None` and never re-queried),
since the cache lookup raises `KeyError` only for absent keys, not for
keys cached as `None`. -/
theorem C10_lookup_cache :
    ∀ (db : String → Option DBRow) (s : MySQLLookup) (key : String) (t₁ t₂ : ℚ),
      s.CacheCounter.fieldset.length = 1 →
      ((MySQLLookup.getitem db (MySQLLookup.getitem db s key t₁).2 key t₂).1
          = (MySQLLookup.getitem db s key t₁).1)
      ∧ ((MySQLLookup.getitem db (MySQLLookup.getitem db s key t₁).2 key t₂).2.Queries
          = (MySQLLookup.getitem db s key t₁).2.Queries)
      ∧ (counterHit (MySQLLookup.getitem db (MySQLLookup.getitem db s key t₁).2 key t₂).2.CacheCounter
          = some ((counterHit (MySQLLookup.getitem db s key t₁).2.CacheCounter).getD 0 + 1)) := by
  intro db s key t₁ t₂ hlen
  cases hcache : alGet s.Cache key with
  | some v =>
    simp only [MySQLLookup.getitem, hcache]
    refine ⟨trivial, trivial, ?_⟩
    exact counterHit_add _ t₂ (counter_add_length _ _ _ _ hlen)
  | none =>
    simp only [MySQLLookup.getitem, hcache, MySQLLookup.find_one]
    simp only [alGet_alSet_self]
    refine ⟨trivial, trivial, ?_⟩
    exact counterHit_add _ t₂ (counter_add_length _ _ _ _ hlen)

/-- C10 witness: against an empty database, looking the same key up twice
returns `None` both times, issues one query in total, and the second call
is a pure cache hit. -/
theorem C10_lookup_cache_witness :
    ((MySQLLookup.getitem dbEmpty (MySQLLookup.getitem dbEmpty lookupToy "k" 0).2 "k" 1).1
        = (MySQLLookup.getitem dbEmpty lookupToy "k" 0).1)
    ∧ ((MySQLLookup.getitem dbEmpty (MySQLLookup.getitem dbEmpty lookupToy "k" 0).2 "k" 1).2.Queries
        = (MySQLLookup.getitem dbEmpty lookupToy "k" 0).2.Queries)
    ∧ (counterHit (MySQLLookup.getitem dbEmpty
          (MySQLLookup.getitem dbEmpty lookupToy "k" 0).2 "k" 1).2.CacheCounter
        = some ((counterHit
            (MySQLLookup.getitem dbEmpty lookupToy "k" 0).2.CacheCounter).getD 0 + 1)) :=
  C10_lookup_cache dbEmpty lookupToy "k" 0 1 rfl

theorem alGet_none_map_id {α : Type} (k : String) (v : α) :
    ∀ l : PyDict α, alGet l k = none →
      l.map (fun p => if p.1 = k then (k, v) else p) = l := by
  intro l
  induction l with
  | nil => intro _; rfl
  | cons p rest ih =>
    obtain ⟨k₁, v₁⟩ := p
    intro hnone
    by_cases hk : k = k₁
    · simp [alGet, hk] at hnone
    · simp only [alGet, if_neg hk] at hnone
      have hne : ¬((k₁, v₁).1 = k) := fun h => hk h.symm
      simp only [List.map_cons, if_neg hne, ih hnone]

theorem mem_alGet_isSome {α : Type} (k : String) (w : α) :
    ∀ l : PyDict α, (k, w) ∈ l → (alGet l k).isSome := by
  intro l
  induction l with
  | nil => intro h; cases h
  | cons p rest ih =>
    obtain ⟨k₁, v₁⟩ := p
    intro hmem
    by_cases hk : k = k₁
    · simp [alGet, hk]
    · rcases List.mem_cons.mp hmem with heq | hmem'
      · cases heq; exact absurd rfl hk
      · simpa [alGet, hk] using ih hmem'

theorem alSet_alSet {α : Type} (l : PyDict α) (k : String) (v : α) :
    alSet (alSet l k v) k v = alSet l k v := by
  by_cases hhas : alHas l k
  · have h1 : alSet l k v = l.map (fun p => if p.1 = k then (k, v) else p) := by
      simp [alSet, hhas]
    have hget : (alGet (alSet l k v) k).isSome := by
      rw [alGet_alSet_self]; rfl
    rw [h1] at hget ⊢
    have h2 : alSet (l.map (fun p => if p.1 = k then (k, v) else p)) k v
        = (l.map (fun p => if p.1 = k then (k, v) else p)).map
            (fun p => if p.1 = k then (k, v) else p) := by
      simp [alSet, alHas, hget]
    rw [h2, List.map_map]
    apply List.map_congr_left
    intro p _
    by_cases hp : p.1 = k
    · simp [Function.comp, hp]
    · simp [Function.comp, hp]
  · have hnone : alGet l k = none := by
      cases hg : alGet l k with
      | none => rfl
      | some w => simp [alHas, hg] at hhas
    have h1 : alSet l k v = l ++ [(k, v)] := by
      simp [alSet, hhas]
    have hget : (alGet (alSet l k v) k).isSome := by
      rw [alGet_alSet_self]; rfl
    rw [h1] at hget ⊢
    have h2 : alSet (l ++ [(k, v)]) k v
        = (l ++ [(k, v)]).map (fun p => if p.1 = k then (k, v) else p) := by
      simp [alSet, alHas, hget]
    rw [h2, List.map_append, alGet_none_map_id k v l hnone]
    simp

theorem getLast?_alSet {α : Type} (l : PyDict α) (k : String) (w v : α)
    (hl : l.getLast? = some (k, w)) :
    (alSet l k v).getLast? = some (k, v) := by
  have hmem : (k, w) ∈ l := List.mem_of_mem_getLast? (Option.mem_def.mpr hl)
  have hhas : alHas l k := mem_alGet_isSome k w l hmem
  have h1 : alSet l k v = l.map (fun p => if p.1 = k then (k, v) else p) := by
    simp [alSet, hhas]
  rw [h1, List.getLast?_map, hl]
  simp

theorem dcCredit_nil (now : ℚ) (c : Option DCCarry) : dcCredit now c [] = c := rfl

theorem dcCredit_concat (now : ℚ) (c : Option DCCarry) (l : PyDict DCValue)
    (p : String × DCValue) :
    dcCredit now c (l ++ [p]) = some (dcStep now p) := by
  simp only [dcCredit, List.foldl_append, List.foldl_cons, List.foldl_nil, dcStep]
  split <;> rfl

theorem dcFlushFields_post (now : ℚ) :
    ∀ (fs : List (MField DutyCycleP)) (c : Option DCCarry) (fs' : List (MField DutyCycleP)),
      dcFlushFields now c fs = .ok fs' →
      ∀ f' ∈ fs', dcRolled now f' ∧ ∃ f ∈ fs, f'.expires_at = f.expires_at := by
  intro fs
  induction fs with
  | nil =>
    intro c fs' h f' hf'
    simp only [dcFlushFields] at h
    cases h
    cases hf'
  | cons f rest ih =>
    intro c fs' h f' hf'
    simp only [dcFlushFields] at h
    cases hcr : dcCredit now c f.payload.actuals with
    | none => rw [hcr] at h; dsimp only at h; cases h
    | some cr =>
      rw [hcr] at h
      dsimp only at h
      cases hrest : dcFlushFields now (some cr) rest with
      | error e => rw [hrest] at h; dsimp only at h; cases h
      | ok rest' =>
        rw [hrest] at h
        dsimp only at h
        cases h
        rcases List.mem_cons.mp hf' with heq | hmem
        · subst heq
          refine ⟨?_, f, List.mem_cons_self f rest, rfl⟩
          rcases List.eq_nil_or_concat f.payload.actuals with hnil | ⟨l₀, p, hconcat⟩
          · rw [hnil, dcCredit_nil] at hcr
            cases hcr
            refine ⟨cr.v_name, cr.vals.on_off, ?_, ?_⟩
            · simp [hnil, alSet, alHas, alGet]
            · rw [hnil]
              show alSet (alSet ([] : PyDict DCValue) cr.v_name _) cr.v_name _
                  = alSet ([] : PyDict DCValue) cr.v_name _
              exact alSet_alSet [] cr.v_name _
          · rw [hconcat, List.concat_eq_append, dcCredit_concat] at hcr
            obtain rfl : cr = dcStep now p := (Option.some.inj hcr).symm
            have hvname : (dcStep now p).v_name = p.1 := by
              unfold dcStep; split <;> rfl
            have hlast : f.payload.actuals.getLast? = some p := by
              rw [hconcat, List.concat_eq_append]; exact List.getLast?_concat l₀
            refine ⟨p.1, (dcStep now p).vals.on_off, ?_, ?_⟩
            · rw [hvname]
              exact getLast?_alSet f.payload.actuals p.1 p.2 _ (by rw [hlast])
            · rw [hvname]
              exact alSet_alSet f.payload.actuals p.1 _
        · rcases ih (some cr) rest' hrest f' hmem with ⟨hr, f₀, hf₀, he⟩
          exact ⟨hr, f₀, List.mem_cons_of_mem f hf₀, he⟩

theorem dcFlushFields_rolled (now : ℚ) :
    ∀ fs : List (MField DutyCycleP), (∀ f ∈ fs, dcRolled now f) →
      ∀ c, dcFlushFields now c fs = .ok fs := by
  intro fs
  induction fs with
  | nil => intro _ c; rfl
  | cons f rest ih =>
    intro hall c
    obtain ⟨k, o, hlast, hset⟩ := hall f (List.mem_cons_self f rest)
    rcases List.eq_nil_or_concat f.payload.actuals with hnil | ⟨l₀, p, hconcat⟩
    · rw [hnil] at hlast; cases hlast
    · have hp : p = (k, ⟨o, now, 0, 0⟩) := by
        have hl := hlast
        rw [hconcat, List.concat_eq_append, List.getLast?_concat] at hl
        exact Option.some.inj hl
      have hcr : dcCredit now c f.payload.actuals = some (dcStep now p) := by
        rw [hconcat, List.concat_eq_append]; exact dcCredit_concat now c l₀ p
      have hstep : dcStep now p = ⟨k, ⟨o, now, 0, 0⟩, 0, 0⟩ := by
        rw [hp]; unfold dcStep
        by_cases ho : ((⟨o, now, 0, 0⟩ : DCValue)).on_off = some true
        · rw [if_pos ho]
          simp
        · rw [if_neg ho]
          simp
      simp only [dcFlushFields, hcr, hstep]
      rw [ih (fun g hm => hall g (List.mem_cons_of_mem f hm)) (some _)]
      dsimp only
      have hfull : ¬((0 : ℚ) + 0 > 0) := by norm_num
      rw [if_neg hfull, hset]

theorem dc_flush_idem (s : DutyCycle) (now t : ℚ) (s₁ : DutyCycle)
    (h : DutyCycle.flush s now t = .ok s₁) : DutyCycle.flush s₁ now t = .ok s₁ := by
  unfold DutyCycle.flush at h
  cases hff : dcFlushFields now none (evictFields s.fieldset t) with
  | error e => rw [hff] at h; cases h
  | ok fs' =>
    rw [hff] at h
    dsimp only at h
    obtain rfl : s₁ = { s with fieldset := fs' } := (Except.ok.inj h).symm
    have post := dcFlushFields_post now _ none fs' hff
    have hev : evictFields fs' t = fs' := by
      rw [evictFields, List.filter_eq_self]
      intro f' hm
      rcases (post f' hm).2 with ⟨f, hfm, he⟩
      have hpred := List.of_mem_filter hfm
      rw [decide_eq_true_eq] at hpred ⊢
      rw [he]
      exact hpred
    unfold DutyCycle.flush
    dsimp only
    rw [hev, dcFlushFields_rolled now fs' (fun f hm => (post f hm).1) none]

theorem evict_idem {P : Type} (l : List (MField P)) (t : ℚ) :
    evictFields (evictFields l t) t = evictFields l t := by
  simp only [evictFields, List.filter_filter, Bool.and_self]

theorem evict_map_evict {P : Type} (g : MField P → MField P)
    (hg : ∀ f, (g f).expires_at = f.expires_at) (t : ℚ) (l : List (MField P)) :
    evictFields ((evictFields l t).map g) t = (evictFields l t).map g := by
  rw [evictFields, List.filter_eq_self]
  intro a ha
  rcases List.mem_map.mp ha with ⟨f, hfmem, rfl⟩
  have hpred := List.of_mem_filter hfmem
  rw [decide_eq_true_eq] at hpred ⊢
  rw [hg f]
  exact hpred

theorem map_idem_on {β : Type} (g : β → β) (hg : ∀ f, g (g f) = g f) (l : List β) :
    (l.map g).map g = l.map g := by
  rw [List.map_map]
  exact List.map_congr_left (fun f _ => hg f)

theorem gauge_flush_idem (s : Gauge) (t : ℚ) :
    Gauge.flush (Gauge.flush s t) t = Gauge.flush s t := by
  obtain ⟨st, ini, exp, fs⟩ := s
  simp only [Gauge.flush]
  rw [evict_idem]

theorem counter_flush_idem (s : Counter) (t : ℚ) (h : s.reset = false) :
    Counter.flush (Counter.flush s t) t = Counter.flush s t := by
  obtain ⟨st, ini, rst, exp, fs⟩ := s
  subst h
  simp only [Counter.flush, Bool.false_eq_true, if_false]
  rw [evict_map_evict (fun f : MField CounterP => { f with payload := { values := f.payload.actuals, actuals := f.payload.actuals } }) (fun f => rfl) t fs]
  rw [map_idem_on (fun f : MField CounterP => { f with payload := { values := f.payload.actuals, actuals := f.payload.actuals } }) (fun f => rfl)]

theorem hist_flush_idem (s : Histogram) (t : ℚ) (h : s.reset = false) :
    Histogram.flush (Histogram.flush s t) t = Histogram.flush s t := by
  obtain ⟨st, rst, exp, ini, fs⟩ := s
  subst h
  simp only [Histogram.flush, Bool.false_eq_true, if_false]
  rw [evict_map_evict (fun f : MField HistP => { f with payload := { values := f.payload.actuals, actuals := f.payload.actuals } }) (fun f => rfl) t fs]
  rw [map_idem_on (fun f : MField HistP => { f with payload := { values := f.payload.actuals, actuals := f.payload.actuals } }) (fun f => rfl)]

theorem eps_flush_idem (s : EPSCounter) (now t : ℚ) :
    EPSCounter.flush (EPSCounter.flush s now t) now t = EPSCounter.flush s now t := by
  obtain ⟨⟨st, ini, rst, exp, fs⟩, lt⟩ := s
  by_cases hd : now - lt ≤ 0
  · have h1 : EPSCounter.flush ⟨⟨st, ini, rst, exp, fs⟩, lt⟩ now t
        = ⟨⟨st, ini, rst, exp, evictFields fs t⟩, lt⟩ := by
      simp only [EPSCounter.flush]
      rw [if_pos hd]
    rw [h1]
    simp only [EPSCounter.flush]
    rw [if_pos hd, evict_idem]
  · have hdp : (0 : ℚ) < now - lt := lt_of_not_le hd
    cases rst with
    | false =>
      have h1 : EPSCounter.flush ⟨⟨st, ini, false, exp, fs⟩, lt⟩ now t
          = ⟨⟨st, ini, false, exp,
              (evictFields fs t).map (fun f =>
                { f with payload :=
                    { values := f.payload.actuals.map (fun p => (p.1, p.2 / (now - lt)))
                      actuals := f.payload.actuals } })⟩, lt⟩ := by
        simp only [EPSCounter.flush]
        rw [if_neg hd]
        simp
      rw [h1]
      simp only [EPSCounter.flush]
      rw [if_neg hd]
      simp only [Bool.false_eq_true, if_false]
      rw [evict_map_evict (fun f : MField CounterP =>
          { f with payload :=
              { values := f.payload.actuals.map (fun p => (p.1, p.2 / (now - lt)))
                actuals := f.payload.actuals } }) (fun f => rfl) t fs]
      rw [map_idem_on (fun f : MField CounterP =>
          { f with payload :=
              { values := f.payload.actuals.map (fun p => (p.1, p.2 / (now - lt)))
                actuals := f.payload.actuals } }) (fun f => rfl)]
      simp
    | true =>
      by_cases hfs : evictFields fs t = []
      · have h1 : EPSCounter.flush ⟨⟨st, ini, true, exp, fs⟩, lt⟩ now t
            = ⟨⟨st, ini, true, exp, ([] : List (MField CounterP))⟩, lt⟩ := by
          simp only [EPSCounter.flush]
          rw [if_neg hd, hfs]
          simp
        rw [h1]
        simp only [EPSCounter.flush]
        rw [if_neg hd]
        simp [evictFields]
      · have h1 : EPSCounter.flush ⟨⟨st, ini, true, exp, fs⟩, lt⟩ now t
            = ⟨⟨st, ini, true, exp,
                (evictFields fs t).map (fun f =>
                  { f with payload :=
                      { values := f.payload.actuals.map (fun p => (p.1, p.2 / (now - lt)))
                        actuals := ini.getD [] } })⟩, now⟩ := by
          simp only [EPSCounter.flush]
          rw [if_neg hd]
          simp [hfs]
        rw [h1]
        simp only [EPSCounter.flush]
        have hd2 : now - now ≤ 0 := by norm_num
        rw [if_pos hd2]
        rw [evict_map_evict (fun f : MField CounterP =>
          { f with payload :=
              { values := f.payload.actuals.map (fun p => (p.1, p.2 / (now - lt)))
                actuals := ini.getD [] } }) (fun f => rfl) t fs]

/-- C2 (amended): flushing twice in succession (same `now` and application
time, no writes in between) leaves `values` — in fact the whole metric
state — unchanged for `Gauge` and `EPSCounter` unconditionally, for
`Counter` and `Histogram` when reset mode is off, and for `DutyCycle`
whenever the first flush succeeds; with reset mode on, a `Counter` or
`Histogram` second flush replaces `values` by the reinitialised `actuals`,
which differs whenever the first flush captured non-initial actuals. -/
theorem C2_flush_idempotence :
    (∀ (s : Gauge) (t : ℚ), Gauge.flush (Gauge.flush s t) t = Gauge.flush s t)
    ∧ (∀ (s : Counter) (t : ℚ), s.reset = false →
        Counter.flush (Counter.flush s t) t = Counter.flush s t)
    ∧ (∀ (s : EPSCounter) (now t : ℚ),
        EPSCounter.flush (EPSCounter.flush s now t) now t = EPSCounter.flush s now t)
    ∧ (∀ (s : Histogram) (t : ℚ), s.reset = false →
        Histogram.flush (Histogram.flush s t) t = Histogram.flush s t)
    ∧ (∀ (s : DutyCycle) (now t : ℚ) (s₁ : DutyCycle),
        DutyCycle.flush s now t = .ok s₁ → DutyCycle.flush s₁ now t = .ok s₁) :=
  ⟨gauge_flush_idem, counter_flush_idem, eps_flush_idem, hist_flush_idem, dc_flush_idem⟩

/-- C2 counterexample: a reset-mode `Counter` holding `actuals = {'a': 5}`:
the first flush publishes `values = {'a': 5}` and clears `actuals`; the
immediately following flush publishes `values = {}`. -/
theorem C2_counterexample :
    (Counter.flush (Counter.flush ctrExample 0) 0).fieldset.map (fun f => f.payload.values)
      ≠ (Counter.flush ctrExample 0).fieldset.map (fun f => f.payload.values) := by
  decide

/-- C2 witness: double-flush invariance at concrete states of all five
metric classes. -/
theorem C2_flush_idempotence_witness :
    Gauge.flush (Gauge.flush gaugeToy 0) 0 = Gauge.flush gaugeToy 0
    ∧ Counter.flush (Counter.flush ctrNoReset 0) 0 = Counter.flush ctrNoReset 0
    ∧ EPSCounter.flush (EPSCounter.flush epsExample 7 0) 7 0 = EPSCounter.flush epsExample 7 0
    ∧ Histogram.flush (Histogram.flush histMetricToy 0) 0 = Histogram.flush histMetricToy 0
    ∧ DutyCycle.flush dcFlushed 10 0 = .ok dcFlushed :=
  ⟨C2_flush_idempotence.1 gaugeToy 0,
   C2_flush_idempotence.2.1 ctrNoReset 0 rfl,
   C2_flush_idempotence.2.2.1 epsExample 7 0,
   C2_flush_idempotence.2.2.2.1 histMetricToy 0 rfl,
   C2_flush_idempotence.2.2.2.2 dcExample 10 0 dcFlushed (by
     norm_num [DutyCycle.flush, dcFlushFields, dcCredit, evictFields, dcExample,
       dcExampleField, dcFlushed, alSet, alHas, alGet]
     decide)⟩
